import Mathlib

/-!
Shallow embedding of `cli.mjs` from wp-landing-slimmer: a CLI that slims a
landing page into a single HTML file (Aggregator, Pruner token extraction,
Assembler, Visual Guard, main pipeline).  JavaScript strings are modelled by
`String`; the handful of JS string primitives used by the source (`trim`,
`toLowerCase`, `startsWith`, `endsWith`, `split`, substring test) are given
explicit list-backed models so that all definitions compute by kernel
reduction.
-/

/-- Model of the JS `\s` whitespace class (ASCII fragment, as used here). -/
def jsWs (c : Char) : Bool := c.isWhitespace

/-- Model of `String.prototype.trim` on char lists. -/
def jsTrim (l : List Char) : List Char :=
  ((l.dropWhile jsWs).reverse.dropWhile jsWs).reverse

/-- Model of `String.prototype.trim` on strings. -/
def jsTrimStr (s : String) : String := String.mk (jsTrim s.toList)

/-- Model of `String.prototype.toLowerCase` (ASCII). -/
def jsToLower (s : String) : String := String.mk (s.toList.map Char.toLower)

/-- Model of `String.prototype.startsWith`. -/
def jsStartsWith (s pre : String) : Bool := pre.toList.isPrefixOf s.toList

/-- Model of `String.prototype.endsWith`. -/
def jsEndsWith (s suf : String) : Bool := suf.toList.isSuffixOf s.toList

/-- Contiguous-sublist test on char lists. -/
def listInfix (sub : List Char) : List Char → Bool
  | [] => sub.isPrefixOf []
  | x :: xs => sub.isPrefixOf (x :: xs) || listInfix sub xs

/-- Model of `s.includes(sub)` / the CSS `[href*=...]` substring test. -/
def jsIncludes (s sub : String) : Bool := listInfix sub.toList s.toList

/-- Model of `String.prototype.split` at a single separator character. -/
def splitOnChar (sep : Char) : List Char → List (List Char)
  | [] => [[]]
  | x :: xs =>
    match splitOnChar sep xs with
    | [] => if x == sep then [[], [x]] else [[x]]
    | h :: t => if x == sep then [] :: h :: t else (x :: h) :: t

/-- Model of `s.split(",").map(x => x.trim()).filter(Boolean)`, used both for
the `--safelist` value (cli.mjs line 48) and the viewports CSV (line 207). -/
def parseCommaList (s : String) : List String :=
  (((splitOnChar ',' s.toList).map jsTrim).map String.mk).filter (fun x => x ≠ "")

/-- Model of `href.split("?")[0]` (cli.mjs line 96). -/
def beforeQuery (s : String) : String := String.mk (s.toList.takeWhile (fun c => c ≠ '?'))

/-- Test for `/^https?:\/\//i` (cli.mjs line 63). -/
def startsWithHttpSlashes (u : String) : Bool :=
  jsStartsWith (jsToLower u) "http://" || jsStartsWith (jsToLower u) "https://"

/-- Test for `/^https?:/i` (cli.mjs line 94). -/
def startsWithHttpColon (u : String) : Bool :=
  jsStartsWith (jsToLower u) "http:" || jsStartsWith (jsToLower u) "https:"

/-! ## DOM model

The document is modelled as the ordered list of nodes in `<head>` followed by
the ordered list of nodes in `<body>`; `querySelectorAll` over the document is
a filter over `head ++ body` (DOM document order). Only the node shapes the
program inspects are distinguished. -/

/-- DOM nodes, restricted to the shapes `cli.mjs` queries: `<link>` (with
`rel`, `href`, `media` attributes, absent attributes modelled as `""`),
`<script>`, `<style>` (with text content), `<meta charset=...>`,
`<meta name=... content=...>`, and anything else. -/
inductive Node where
  | link (rel href media : String)
  | script
  | style (text : String)
  | metaCharset (v : String)
  | metaNamed (nm content : String)
  | other (tag : String)
deriving DecidableEq, Repr

/-- A document: head nodes then body nodes. -/
structure Doc where
  head : List Node
  body : List Node
deriving DecidableEq, Repr

/-- All nodes in DOM document order. -/
def Doc.nodes (d : Doc) : List Node := d.head ++ d.body

/-- Matcher for `link[rel~="stylesheet"]` (`~=` is whitespace-word match). -/
def isStylesheetLink : Node → Bool
  | Node.link rel _ _ => ((splitOnChar ' ' rel.toList).map String.mk).contains "stylesheet"
  | _ => false

/-- Matcher for `[href*="fonts.googleapis"]` on a link. -/
def hrefHasFonts : Node → Bool
  | Node.link _ href _ => jsIncludes href "fonts.googleapis"
  | _ => false

/-- Matcher for `link[rel~="stylesheet"][href*="fonts.googleapis"]` (cli.mjs line 164). -/
def isFontSheetLink (n : Node) : Bool := isStylesheetLink n && hrefHasFonts n

/-- Matcher for `link[rel~="stylesheet"]:not([href*="fonts.googleapis"])` (line 168). -/
def isNonFontSheetLink (n : Node) : Bool := isStylesheetLink n && !hrefHasFonts n

/-- Matcher for `script` elements. -/
def isScriptNode : Node → Bool
  | Node.script => true
  | _ => false

/-- Matcher for `link[rel="preload"], link[rel="prefetch"], link[rel="dns-prefetch"]`
(exact attribute value match, cli.mjs line 169). -/
def isPerfHintLink : Node → Bool
  | Node.link rel _ _ => rel == "preload" || rel == "prefetch" || rel == "dns-prefetch"
  | _ => false

/-- Matcher for `style` elements. -/
def isStyleNode : Node → Bool
  | Node.style _ => true
  | _ => false

/-- Matcher for `meta[charset]`. -/
def isCharsetMeta : Node → Bool
  | Node.metaCharset _ => true
  | _ => false

/-- Matcher for `meta[name="viewport"]`. -/
def isViewportMeta : Node → Bool
  | Node.metaNamed nm _ => nm == "viewport"
  | _ => false

/-- The `href` attribute of a link, `getAttribute("href") || ""` (line 88). -/
def linkHref : Node → String
  | Node.link _ href _ => href
  | _ => ""

/-- The `media` attribute of a link, `getAttribute("media") || ""` (line 89). -/
def linkMedia : Node → String
  | Node.link _ _ media => media
  | _ => ""

/-- `doc.querySelectorAll('link[rel~="stylesheet"]')` in document order (line 82). -/
def styleLinks (d : Doc) : List Node := d.nodes.filter isStylesheetLink

/-- `doc.querySelectorAll("style")` text contents in document order
(line 83; `st.textContent || ""` at line 112). -/
def inlineStyles (d : Doc) : List String := d.nodes.filterMap (fun n =>
  match n with
  | Node.style t => some t
  | _ => none)

/-! ## Aggregator (`loadHtmlAndCss`, cli.mjs lines 69-115)

The external collaborators (URL resolution, disk path resolution, disk reads,
network fetches) are abstract functions in an environment.  A disk read that
throws is modelled by `readLocal` returning `none` (the source catches it and
substitutes `""`); a network fetch whose promise rejects is modelled by
`fetchNet` returning `none` (the source does NOT catch it, so it is a thrown
exception, modelled by `Except.error`). -/

/-- Decidable equality for `Except`, for concrete evaluations. -/
instance {ε α : Type} [DecidableEq ε] [DecidableEq α] : DecidableEq (Except ε α) :=
  fun a b =>
    match a, b with
    | Except.ok x, Except.ok y =>
      if h : x = y then isTrue (h ▸ rfl) else isFalse (fun hh => h (by injection hh))
    | Except.ok _, Except.error _ => isFalse (fun hh => Except.noConfusion hh)
    | Except.error _, Except.ok _ => isFalse (fun hh => Except.noConfusion hh)
    | Except.error e, Except.error f =>
      if h : e = f then isTrue (h ▸ rfl) else isFalse (fun hh => h (by injection hh))

/-- Loader environment for the Aggregator. -/
structure Env where
  /-- Whether `inputPath` is set (local `--in` mode), cli.mjs line 94. -/
  isLocalInput : Bool
  /-- The base origin `baseUrl` (line 56). -/
  base : String
  /-- `new URL(base).protocol` (line 64). -/
  protocol : String
  /-- `new URL(u, base).href` (lines 65-66), abstract standard URL resolution. -/
  resolve : String → String → String
  /-- `path.resolve(path.dirname(inputPath), strippedHref)` (line 96), abstract. -/
  diskResolve : String → String
  /-- `fs.readFile(diskPath, "utf8")`: `none` models a thrown read error (caught
  at line 98). -/
  readLocal : String → Option String
  /-- `fetch(url).text()`: `none` models a rejected fetch (NOT caught, lines 101-102). -/
  fetchNet : String → Option String

/-- Model of `absUrl` (cli.mjs lines 60-67).  The two final source branches
(`u.startsWith("/")` and the default) both return `new URL(u, base).href` and
are merged. -/
def absUrl (env : Env) (u : String) : Option String :=
  if u = "" then none
  else if jsStartsWith u "data:" then none
  else if startsWithHttpSlashes u then some u
  else if jsStartsWith u "//" then some (env.protocol ++ u)
  else some (env.resolve u env.base)

/-- The CSS-retrieval step for one link (cli.mjs lines 93-103): local read with
caught failure (`css = ""`), or network fetch whose failure is a thrown
exception. -/
def retrieveCss (env : Env) (href url : String) : Except String String :=
  if startsWithHttpColon url = false ∧ env.isLocalInput = true then
    Except.ok ((env.readLocal (env.diskResolve (beforeQuery href))).getD "")
  else
    match env.fetchNet url with
    | some t => Except.ok t
    | none => Except.error "fetch failed"

/-- One iteration of the Aggregator's link loop (cli.mjs lines 87-110):
`Except.ok none` models `continue`, `Except.ok (some s)` models
`cssParts.push(s)`, `Except.error` models an uncaught exception.  `media` is
the trimmed media attribute (line 89). -/
def processLink (env : Env) (l : Node) : Except String (Option String) :=
  match absUrl env (linkHref l) with
  | none => Except.ok none
  | some url =>
    match retrieveCss env (linkHref l) url with
    | Except.error e => Except.error e
    | Except.ok css =>
      if css = "" then Except.ok none
      else if jsTrimStr (linkMedia l) ≠ "" ∧ jsToLower (jsTrimStr (linkMedia l)) ≠ "all" then
        Except.ok (some ("@media " ++ jsTrimStr (linkMedia l) ++ "\x7b\n" ++ css ++ "\n\x7d"))
      else Except.ok (some css)

/-- The Aggregator's link loop: collect the pushed `cssParts` in order, with
the first uncaught exception aborting (cli.mjs lines 85-110). -/
def collectLinked (env : Env) : List Node → Except String (List String)
  | [] => Except.ok []
  | l :: ls =>
    match processLink env l with
    | Except.error e => Except.error e
    | Except.ok none => collectLinked env ls
    | Except.ok (some s) =>
      match collectLinked env ls with
      | Except.error e => Except.error e
      | Except.ok rest => Except.ok (s :: rest)

/-- Model of `loadHtmlAndCss`'s CSS result (cli.mjs lines 82-114): linked
parts in document order, then inline style contents, joined with `"\n\n"`. -/
def aggregateCss (env : Env) (d : Doc) : Except String String :=
  match collectLinked env (styleLinks d) with
  | Except.error e => Except.error e
  | Except.ok parts => Except.ok (String.intercalate "\n\n" (parts ++ inlineStyles d))

/-! ## Safelist (`SAFE_PREFIXES` and `buildSafelist`, cli.mjs lines 120-133)

A pattern `new RegExp("^" + p)` built from a stem with no regex
metacharacters is a starts-with test, so patterns are modelled by their stem
strings. -/

/-- The fixed framework safelist stems (`SAFE_PREFIXES`, cli.mjs lines 120-123). -/
def safeFamilies : List String :=
  ["elementor", "e-", "woocommerce", "cartflows", "wcf", "ast-", "wp-",
   "swiper", "select2", "dashicons", "uagb", "cfp-", "wpcf7"]

/-- Model of `s.replace(dashAtEnd, "")` where `dashAtEnd` is the regex
anchored dash-at-end-of-string: drop one trailing dash if present. -/
def jsStripEndDash (s : String) : String :=
  if jsEndsWith s "-" then String.mk s.toList.dropLast else s

/-- The safelist object: exact names (`standard`) and pattern stems
(`deep` and `greedy`, which the source sets to the same array). -/
structure Safelist where
  standard : List String
  deep : List String
  greedy : List String
deriving DecidableEq, Repr

/-- Model of `buildSafelist` (cli.mjs lines 125-133). -/
def buildSafelist (extra : List String) : Safelist :=
  let standard := safeFamilies ++ extra.filter (fun s => !(jsEndsWith s "-"))
  let stems := safeFamilies ++ (extra.filter (fun s => jsEndsWith s "-")).map jsStripEndDash
  ⟨standard, stems, stems⟩

/-! ## Pruner token extraction: the `data-*` scanner (cli.mjs line 146)

`Array.from(content.matchAll(/\sdata-[a-z0-9-]+(?:=["'][^"']*["'])?/gi)).map(m => m[0].trim())`

`matchAll` finds successive non-overlapping leftmost matches; `m[0]` is the
WHOLE matched text, including the optional `="value"` part.  The regex engine
is deterministic for this pattern because the character classes are disjoint
from `=` and from the quote characters.  Modelled as a fuel-indexed scanner
over char lists (fuel = remaining length bounds the recursion and every step
consumes at least one character). -/

/-- Single-quote character (code point 39). -/
def squote : Char := Char.ofNat 39

/-- The regex class `["']`. -/
def isQuoteCh (c : Char) : Bool := c == '"' || c == squote

/-- The regex class `[a-z0-9-]` under the `i` flag. -/
def dataNameChar (c : Char) : Bool := c.isAlpha || c.isDigit || c == '-'

/-- Case-insensitive match of one literal letter (`d` is lowercase). -/
def lcEq (c d : Char) : Bool := c.toLower == d

/-- Length matched by the optional group `(?:=["'][^"']*["'])?` at the current
position; `0` when the group does not match (the group is optional, so the
overall match still succeeds). -/
def matchOptValue : List Char → Nat
  | '=' :: q :: rest =>
    if isQuoteCh q then
      match rest.dropWhile (fun c => !isQuoteCh c) with
      | q2 :: _ =>
        if isQuoteCh q2 then (rest.takeWhile (fun c => !isQuoteCh c)).length + 3 else 0
      | [] => 0
    else 0
  | _ => 0

/-- Attempt the regex `\sdata-[a-z0-9-]+(?:=["'][^"']*["'])?` (with `i` flag)
at the current position; returns the length of the match. -/
def tryDataMatch : List Char → Option Nat
  | w :: c1 :: c2 :: c3 :: c4 :: c5 :: rest =>
    if jsWs w && lcEq c1 'd' && lcEq c2 'a' && lcEq c3 't' && lcEq c4 'a' && c5 == '-' then
      let nm := rest.takeWhile dataNameChar
      if nm.isEmpty then none
      else some (6 + nm.length + matchOptValue (rest.drop nm.length))
    else none
  | _ => none

/-- Global scan (`matchAll` + `m[0].trim()`): successive non-overlapping
matches, each reported as its trimmed full text.  A successful match has
length at least 6, so dropping `n - 1` of the tail always makes progress;
the fuel argument (initially the list's length) makes this structural. -/
def scanDataAux : Nat → List Char → List (List Char)
  | _, [] => []
  | 0, _ :: _ => []
  | fuel + 1, c :: cs =>
    match tryDataMatch (c :: cs) with
    | some n => jsTrim ((c :: cs).take n) :: scanDataAux fuel (cs.drop (n - 1))
    | none => scanDataAux fuel cs

/-- The `data` line of `defaultExtractor` (cli.mjs line 146): the list of
trimmed full-match texts for the `data-*` regex over the raw markup. -/
def dataTokens (content : String) : List (List Char) :=
  scanDataAux content.toList.length content.toList

/-! ## Assembler (`serializeWithStyle`, cli.mjs lines 158-187)

`querySelectorAll(...).forEach(el => el.remove())` is a filter over the whole
document; `doc.head.prepend` / `append` act on the head list; the final style
block is appended to the head. -/

/-- Remove every node matching `p` from the document. -/
def removeAll (p : Node → Bool) (d : Doc) : Doc :=
  ⟨d.head.filter (fun n => !p n), d.body.filter (fun n => !p n)⟩

/-- `doc.querySelector('meta[charset]') !== null`. -/
def hasCharsetMeta (d : Doc) : Bool := d.nodes.any isCharsetMeta

/-- `doc.querySelector('meta[name="viewport"]') !== null`. -/
def hasViewportMeta (d : Doc) : Bool := d.nodes.any isViewportMeta

/-- The viewport meta element created at cli.mjs line 177. -/
def viewportMetaNode : Node :=
  Node.metaNamed "viewport" "width=device-width, initial-scale=1"

/-- The removal phase (cli.mjs lines 163-169): font stylesheet links removed
unless `keepFontLinks`; then all remaining stylesheet links except the
`fonts.googleapis` family; then scripts and perf-hint links. -/
def stripLinksAndScripts (keepFontLinks : Bool) (d : Doc) : Doc :=
  removeAll (fun n => isScriptNode n || isPerfHintLink n)
    (removeAll isNonFontSheetLink
      (if keepFontLinks then d else removeAll isFontSheetLink d))

/-- Lines 172-175: prepend `<meta charset="utf-8">` to the head if no charset
meta exists anywhere in the document. -/
def ensureCharset (d : Doc) : Doc :=
  if hasCharsetMeta d then d else ⟨Node.metaCharset "utf-8" :: d.head, d.body⟩

/-- Lines 176-179: append the viewport meta to the head if absent. -/
def ensureViewport (d : Doc) : Doc :=
  if hasViewportMeta d then d else ⟨d.head ++ [viewportMetaNode], d.body⟩

/-- Lines 181-184: append one `<style>` with the final CSS to the head. -/
def appendStyle (d : Doc) (finalCss : String) : Doc :=
  ⟨d.head ++ [Node.style finalCss], d.body⟩

/-- Model of `serializeWithStyle` (cli.mjs lines 158-187), up to final text
serialization: the removal phase, meta ensuring, and the style append, in
source order. -/
def serializeWithStyle (keepFontLinks : Bool) (d : Doc) (finalCss : String) : Doc :=
  appendStyle (ensureViewport (ensureCharset (stripLinksAndScripts keepFontLinks d))) finalCss

/-! ## Visual Guard (`visualGuard`, cli.mjs lines 189-236) -/

/-- Outcome of the guard: the boolean it returns, plus whether the
missing-optional-dependency warning was printed (cli.mjs line 196). -/
structure GuardResult where
  ok : Bool
  warnedMissingDeps : Bool
deriving DecidableEq, Repr

/-- Model of `visualGuard`: when the optional rendering/diff collaborators
fail to import, warn and return `true` (lines 191-198); otherwise compute the
per-viewport pixel-difference counts (`diff`, abstract collaborator, line
227), track the maximum (`worst`, lines 208 and 228), and accept iff
`worst <= 500` (line 235). -/
def visualGuard (depsOk : Bool) (diff : String → Nat) (viewportsCsv : String) : GuardResult :=
  if depsOk = false then ⟨true, true⟩
  else
    let vps := parseCommaList viewportsCsv
    let worst := (vps.map diff).foldl max 0
    ⟨decide (worst ≤ 500), false⟩

/-- The default `--viewports` value (cli.mjs line 47). -/
def defaultViewports : String := "1440x900,1024x768,768x1024,390x844"

/-! ## Argument parsing (`parseArgs`, cli.mjs lines 29-39) and flag defaults -/

/-- A parsed argument value: a following non-flag token, or boolean `true`. -/
inductive ArgVal where
  | str (s : String)
  | flagTrue
deriving DecidableEq, Repr

/-- The loop body of `parseArgs` (cli.mjs lines 31-37) over `argv.slice(2)`:
tokens not starting with `--` are skipped; a flag consumes the next token as
its value when that token exists and does not start with `--`. -/
def parseArgsLoop : List String → List (String × ArgVal)
  | [] => []
  | [k] =>
    if jsStartsWith k "--" then [(String.mk (k.toList.drop 2), ArgVal.flagTrue)] else []
  | k :: v :: rest2 =>
    if jsStartsWith k "--" then
      let key := String.mk (k.toList.drop 2)
      if jsStartsWith v "--" then (key, ArgVal.flagTrue) :: parseArgsLoop (v :: rest2)
      else (key, ArgVal.str v) :: parseArgsLoop rest2
    else parseArgsLoop (v :: rest2)

/-- `parseArgs(process.argv)` (cli.mjs line 40): the loop starts at index 2. -/
def parseArgs (argv : List String) : List (String × ArgVal) :=
  parseArgsLoop (argv.drop 2)

/-- Object-property read `args[key]`: the last assignment wins. -/
def lookupArg (ps : List (String × ArgVal)) (k : String) : Option ArgVal :=
  ((ps.filter (fun p => p.fst == k)).getLast?).map Prod.snd

/-- JS truthiness of `args[key]` as used by `!!args[...]` (cli.mjs lines
45-49): absent is falsy, `true` is truthy, a string is truthy iff nonempty. -/
def truthyArg : Option ArgVal → Bool
  | none => false
  | some ArgVal.flagTrue => true
  | some (ArgVal.str s) => s ≠ ""

/-- `keepFontLinks = !!args["keep-font-links"]` (cli.mjs line 46). -/
def keepFontLinksOf (argv : List String) : Bool :=
  truthyArg (lookupArg (parseArgs argv) "keep-font-links")

/-! ## Main pipeline (the IIFE, cli.mjs lines 238-267)

The Pruner and Minifier collaborators (PurgeCSS, cssnano) transform CSS text;
their composition is an abstract total function.  The per-viewport pixel diff
between the rendered original and slimmed documents is likewise abstract. -/

/-- Run configuration derived from the parsed flags. -/
structure Config where
  doVisual : Bool
  keepFontLinks : Bool
  outPath : String
  viewportsCsv : String

/-- Collaborator world for one run. -/
structure World where
  env : Env
  /-- `minifyCss(purgeCss(html, css, safelist))` composed, abstract (lines 244-245). -/
  transformCss : String → String
  /-- Whether the optional puppeteer/pixelmatch/pngjs imports succeed (lines 191-198). -/
  guardDeps : Bool
  /-- Pixel-diff count for (original doc, slim doc, viewport) (line 227), abstract. -/
  diff : Doc → Doc → String → Nat

/-- Result of the main IIFE: output written with exit code 0, visual
rejection with exit code 2 (line 255), or a caught exception with exit code 1
(line 265). -/
inductive MainResult where
  | success (outPath : String) (content : Doc)
  | visualFail
  | fatal (msg : String)
deriving DecidableEq, Repr

/-- The process exit code of a `MainResult`. -/
def exitCode : MainResult → Nat
  | MainResult.success _ _ => 0
  | MainResult.visualFail => 2
  | MainResult.fatal _ => 1

/-- What `fs.writeFile(outPath, ...)` at cli.mjs line 260 wrote, if reached. -/
def writesOutput : MainResult → Option (String × Doc)
  | MainResult.success p c => some (p, c)
  | _ => none

/-- The slim document built at cli.mjs line 248. -/
def slimDoc (cfg : Config) (w : World) (d : Doc) (css : String) : Doc :=
  serializeWithStyle cfg.keepFontLinks d (w.transformCss css)

/-- Model of the main IIFE (cli.mjs lines 238-267): aggregate CSS (an
uncaught exception becomes `fatal`/exit 1), purge+minify, build the slim
document, optionally run the visual guard (rejection exits 2 before the
output write), then write the output. -/
def mainModel (cfg : Config) (w : World) (d : Doc) : MainResult :=
  match aggregateCss w.env d with
  | Except.error e => MainResult.fatal e
  | Except.ok css =>
    let slim := slimDoc cfg w d css
    if cfg.doVisual then
      if (visualGuard w.guardDeps (w.diff d slim) cfg.viewportsCsv).ok then
        MainResult.success cfg.outPath slim
      else MainResult.visualFail
    else MainResult.success cfg.outPath slim

/-! ## Fixtures used by concrete evaluations -/

/-- Environment in URL mode whose network fetches all fail (rejected promise). -/
def envNetFail : Env :=
  ⟨false, "https://example.com", "https:", fun _ _ => "", fun s => s,
   fun _ => none, fun _ => none⟩

/-- A document with one linked network stylesheet and one inline style. -/
def docOneNetLink : Doc :=
  ⟨[Node.link "stylesheet" "https://cdn.example.com/a.css" ""], [Node.style "p\x7b\x7d"]⟩

/-- Environment in local (`--in`) mode whose local reads throw and whose
network fetches succeed; relative URL resolution is modelled by prefixing. -/
def envLocalFail : Env :=
  ⟨true, "https://example.com", "https:", fun u _ => "local/" ++ u, fun s => s,
   fun _ => none, fun _ => some "q\x7b\x7d"⟩

/-- A linked stylesheet with a relative href. -/
def linkLocal : Node := Node.link "stylesheet" "style.css" ""

/-- A linked stylesheet with an absolute network href. -/
def linkNet : Node := Node.link "stylesheet" "https://cdn.example.com/b.css" ""

/-- A document whose head already holds one inline style block. -/
def docOneStyle : Doc := ⟨[Node.style "a\x7b\x7d"], []⟩

/-- The text of a `data-x="..."` attribute with value `v` (also the full
regex match for it, and hence the extracted token after trimming). -/
def dataAttrTail (v : List Char) : List Char :=
  'd' :: 'a' :: 't' :: 'a' :: '-' :: 'x' :: '=' :: '"' :: (v ++ ['"'])

/-- A minimal markup fragment holding a `data-x` attribute with value `v`:
one leading whitespace (required by the regex) then the attribute text. -/
def dataAttrMarkup (v : List Char) : List Char := ' ' :: dataAttrTail v

/-- An argv for a default run: no `--keep-font-links` and no font-related
configuration at all. -/
def argvDefaultRun : List String := ["node", "cli.mjs", "--in", "index.html"]

/-- A document whose head links one Google-Fonts stylesheet. -/
def docWithFontLink : Doc :=
  ⟨[Node.link "stylesheet" "https://fonts.googleapis.com/css2?family=Inter" ""], []⟩

/-- The contribution of one link when its processing did not abort. -/
def okPart (env : Env) (l : Node) : Option String :=
  match processLink env l with
  | Except.ok r => r
  | Except.error _ => none

/-- Environment in URL mode whose fetches echo the requested URL as the CSS
text (so contributions are distinguishable). -/
def envEcho : Env :=
  ⟨false, "https://e.com", "https:", fun u _ => u, fun s => s,
   fun _ => none, fun u => some u⟩

/-- A document with two linked stylesheets and one inline style block. -/
def docTwoLinks : Doc :=
  ⟨[Node.link "stylesheet" "https://e.com/a.css" "",
    Node.link "stylesheet" "https://e.com/b.css" ""],
   [Node.style "i\x7b\x7d"]⟩

/-- Run configuration with the guard enabled and default viewports/out path. -/
def cfgVisual : Config := ⟨true, false, "slim.html", defaultViewports⟩

/-- World whose guard collaborators load and report 501 differing pixels at
every viewport (over budget). -/
def worldReject : World := ⟨envEcho, id, true, fun _ _ _ => 501⟩

/-- World whose optional guard collaborators fail to load. -/
def worldNoDeps : World := ⟨envEcho, id, false, fun _ _ _ => 0⟩

/-- The aggregate CSS of `docTwoLinks` under `envEcho`. -/
def cssTwoLinks : String := "https://e.com/a.css\n\nhttps://e.com/b.css\n\ni\x7b\x7d"

/-! ## Counting lemmas -/

theorem countP_filter_keep {p q : Node → Bool} (h : ∀ n, p n = true → q n = true) :
    ∀ l : List Node, (l.filter q).countP p = l.countP p := by
  intro l
  induction l with
  | nil => rfl
  | cons a l ih =>
    cases hq : q a with
    | true => simp [List.filter_cons, hq, List.countP_cons, ih]
    | false =>
      have hp : p a = false := by
        cases hpa : p a
        · rfl
        · exact absurd (h a hpa) (by simp [hq])
      simp [List.filter_cons, hq, List.countP_cons, hp, ih]

theorem countP_filter_drop {p q : Node → Bool} (h : ∀ n, q n = true → p n = false) :
    ∀ l : List Node, (l.filter q).countP p = 0 := by
  intro l
  induction l with
  | nil => rfl
  | cons a l ih =>
    cases hq : q a with
    | true => simp [List.filter_cons, hq, List.countP_cons, h a hq, ih]
    | false => simp [List.filter_cons, hq, ih]

theorem countP_filter_le (p q : Node → Bool) :
    ∀ l : List Node, (l.filter q).countP p ≤ l.countP p := by
  intro l
  induction l with
  | nil => exact Nat.le_refl 0
  | cons a l ih =>
    cases hq : q a with
    | true =>
      simp only [List.filter_cons, hq, if_pos, List.countP_cons]
      exact Nat.add_le_add_right ih _
    | false =>
      simp only [List.filter_cons, hq, List.countP_cons]
      exact Nat.le_trans ih (Nat.le_add_right _ _)

theorem removeAll_head (p : Node → Bool) (d : Doc) :
    (removeAll p d).head = d.head.filter (fun n => !p n) := rfl

theorem removeAll_body (p : Node → Bool) (d : Doc) :
    (removeAll p d).body = d.body.filter (fun n => !p n) := rfl

theorem removeAll_nodes (p : Node → Bool) (d : Doc) :
    (removeAll p d).nodes = d.nodes.filter (fun n => !p n) := by
  simp [removeAll, Doc.nodes, List.filter_append]

theorem Doc.nodes_countP (d : Doc) (p : Node → Bool) :
    d.nodes.countP p = d.head.countP p + d.body.countP p := by
  simp [Doc.nodes, List.countP_append]

theorem style_keeps_font (n : Node) (h : isStyleNode n = true) :
    isFontSheetLink n = false := by
  cases n <;> simp_all [isStyleNode, isFontSheetLink, isStylesheetLink, hrefHasFonts]

theorem style_keeps_nonfont (n : Node) (h : isStyleNode n = true) :
    isNonFontSheetLink n = false := by
  cases n <;> simp_all [isStyleNode, isNonFontSheetLink, isStylesheetLink, hrefHasFonts]

theorem style_keeps_script (n : Node) (h : isStyleNode n = true) :
    (isScriptNode n || isPerfHintLink n) = false := by
  cases n <;> simp_all [isStyleNode, isScriptNode, isPerfHintLink]

theorem charset_keeps_font (n : Node) (h : isCharsetMeta n = true) :
    isFontSheetLink n = false := by
  cases n <;> simp_all [isCharsetMeta, isFontSheetLink, isStylesheetLink, hrefHasFonts]

theorem charset_keeps_nonfont (n : Node) (h : isCharsetMeta n = true) :
    isNonFontSheetLink n = false := by
  cases n <;> simp_all [isCharsetMeta, isNonFontSheetLink, isStylesheetLink, hrefHasFonts]

theorem charset_keeps_script (n : Node) (h : isCharsetMeta n = true) :
    (isScriptNode n || isPerfHintLink n) = false := by
  cases n <;> simp_all [isCharsetMeta, isScriptNode, isPerfHintLink]

theorem viewport_keeps_font (n : Node) (h : isViewportMeta n = true) :
    isFontSheetLink n = false := by
  cases n <;> simp_all [isViewportMeta, isFontSheetLink, isStylesheetLink, hrefHasFonts]

theorem viewport_keeps_nonfont (n : Node) (h : isViewportMeta n = true) :
    isNonFontSheetLink n = false := by
  cases n <;> simp_all [isViewportMeta, isNonFontSheetLink, isStylesheetLink, hrefHasFonts]

theorem viewport_keeps_script (n : Node) (h : isViewportMeta n = true) :
    (isScriptNode n || isPerfHintLink n) = false := by
  cases n <;> simp_all [isViewportMeta, isScriptNode, isPerfHintLink]

/-- Filtering with the negation of a predicate that is false on everything
counted by `p` preserves the `p`-count. -/
theorem countP_filter_not_keep {p r : Node → Bool} (h : ∀ n, p n = true → r n = false)
    (l : List Node) : (l.filter (fun n => !r n)).countP p = l.countP p := by
  refine countP_filter_keep (fun n hn => ?_) l
  simp [h n hn]

/-- The removal phase preserves any head count of nodes that are neither
stylesheet links nor scripts nor perf hints. -/
theorem strip_head_countP (p : Node → Bool)
    (hfont : ∀ n, p n = true → isFontSheetLink n = false)
    (hnon : ∀ n, p n = true → isNonFontSheetLink n = false)
    (hscr : ∀ n, p n = true → (isScriptNode n || isPerfHintLink n) = false)
    (kfl : Bool) (d : Doc) :
    (stripLinksAndScripts kfl d).head.countP p = d.head.countP p := by
  unfold stripLinksAndScripts
  cases kfl with
  | true =>
    rw [if_pos rfl]
    simp only [removeAll_head]
    rw [countP_filter_not_keep hscr, countP_filter_not_keep hnon]
  | false =>
    rw [if_neg (by simp)]
    simp only [removeAll_head]
    rw [countP_filter_not_keep hscr, countP_filter_not_keep hnon,
      countP_filter_not_keep hfont]

/-- The removal phase preserves any whole-document count of nodes that are
neither stylesheet links nor scripts nor perf hints. -/
theorem strip_nodes_countP (p : Node → Bool)
    (hfont : ∀ n, p n = true → isFontSheetLink n = false)
    (hnon : ∀ n, p n = true → isNonFontSheetLink n = false)
    (hscr : ∀ n, p n = true → (isScriptNode n || isPerfHintLink n) = false)
    (kfl : Bool) (d : Doc) :
    (stripLinksAndScripts kfl d).nodes.countP p = d.nodes.countP p := by
  unfold stripLinksAndScripts
  cases kfl with
  | true =>
    rw [if_pos rfl]
    simp only [removeAll_nodes]
    rw [countP_filter_not_keep hscr, countP_filter_not_keep hnon]
  | false =>
    rw [if_neg (by simp)]
    simp only [removeAll_nodes]
    rw [countP_filter_not_keep hscr, countP_filter_not_keep hnon,
      countP_filter_not_keep hfont]

/-- After the removal phase no script nodes remain anywhere. -/
theorem strip_no_scripts (kfl : Bool) (d : Doc) :
    (stripLinksAndScripts kfl d).nodes.countP isScriptNode = 0 := by
  unfold stripLinksAndScripts
  rw [removeAll_nodes]
  refine countP_filter_drop (fun n hn => ?_) _
  cases hs : isScriptNode n
  · rfl
  · simp [hs] at hn

/-- After the removal phase no non-font stylesheet links remain anywhere. -/
theorem strip_no_nonfont (kfl : Bool) (d : Doc) :
    (stripLinksAndScripts kfl d).nodes.countP isNonFontSheetLink = 0 := by
  unfold stripLinksAndScripts
  rw [removeAll_nodes, removeAll_nodes]
  have hmid : ∀ l : List Node,
      (l.filter (fun n => !isNonFontSheetLink n)).countP isNonFontSheetLink = 0 := by
    intro l
    refine countP_filter_drop (fun n hn => ?_) l
    cases hs : isNonFontSheetLink n
    · rfl
    · simp [hs] at hn
  generalize (if kfl = true then d else removeAll isFontSheetLink d).nodes = l
  have h0 := hmid l
  have hle := countP_filter_le isNonFontSheetLink
    (fun n => !(isScriptNode n || isPerfHintLink n))
    (l.filter (fun n => !isNonFontSheetLink n))
  omega

theorem ensureCharset_head_countP_other (p : Node → Bool)
    (hp : p (Node.metaCharset "utf-8") = false) (d : Doc) :
    (ensureCharset d).head.countP p = d.head.countP p := by
  unfold ensureCharset
  split
  · rfl
  · simp [List.countP_cons, hp]

theorem ensureCharset_nodes_countP_other (p : Node → Bool)
    (hp : p (Node.metaCharset "utf-8") = false) (d : Doc) :
    (ensureCharset d).nodes.countP p = d.nodes.countP p := by
  unfold ensureCharset
  split
  · rfl
  · simp [Doc.nodes, List.countP_cons, hp, List.countP_append]

theorem ensureCharset_charset_count (d : Doc) :
    (ensureCharset d).nodes.countP isCharsetMeta
      = max 1 (d.nodes.countP isCharsetMeta) := by
  unfold ensureCharset
  split
  · rename_i h
    have hpos : 0 < d.nodes.countP isCharsetMeta := by
      rw [List.countP_pos_iff]
      rcases List.any_eq_true.mp h with ⟨x, hx, hpx⟩
      exact ⟨x, hx, hpx⟩
    omega
  · rename_i h
    have hzero : d.nodes.countP isCharsetMeta = 0 := by
      rw [List.countP_eq_zero]
      intro a ha hpa
      exact h (List.any_eq_true.mpr ⟨a, ha, hpa⟩)
    simp [Doc.nodes, List.countP_cons, List.countP_append, isCharsetMeta]
    rw [Doc.nodes_countP] at hzero
    omega

theorem ensureViewport_head_countP_other (p : Node → Bool)
    (hp : p viewportMetaNode = false) (d : Doc) :
    (ensureViewport d).head.countP p = d.head.countP p := by
  unfold ensureViewport
  split
  · rfl
  · simp [List.countP_append, List.countP_cons, hp]

theorem ensureViewport_nodes_countP_other (p : Node → Bool)
    (hp : p viewportMetaNode = false) (d : Doc) :
    (ensureViewport d).nodes.countP p = d.nodes.countP p := by
  unfold ensureViewport
  split
  · rfl
  · simp [Doc.nodes, List.countP_append, List.countP_cons, hp]

theorem ensureViewport_viewport_count (d : Doc) :
    (ensureViewport d).nodes.countP isViewportMeta
      = max 1 (d.nodes.countP isViewportMeta) := by
  unfold ensureViewport
  split
  · rename_i h
    have hpos : 0 < d.nodes.countP isViewportMeta := by
      rw [List.countP_pos_iff]
      rcases List.any_eq_true.mp h with ⟨x, hx, hpx⟩
      exact ⟨x, hx, hpx⟩
    omega
  · rename_i h
    have hzero : d.nodes.countP isViewportMeta = 0 := by
      rw [List.countP_eq_zero]
      intro a ha hpa
      exact h (List.any_eq_true.mpr ⟨a, ha, hpa⟩)
    have : (Doc.mk (d.head ++ [viewportMetaNode]) d.body).nodes.countP isViewportMeta
        = d.nodes.countP isViewportMeta + 1 := by
      simp [Doc.nodes, List.countP_append, List.countP_cons, viewportMetaNode,
        isViewportMeta]
      omega
    omega

theorem appendStyle_head_style_count (d : Doc) (css : String) :
    (appendStyle d css).head.countP isStyleNode = d.head.countP isStyleNode + 1 := by
  simp [appendStyle, List.countP_append, List.countP_cons, isStyleNode]

theorem appendStyle_nodes_countP_other (p : Node → Bool) (css : String)
    (hp : ∀ t, p (Node.style t) = false) (d : Doc) :
    (appendStyle d css).nodes.countP p = d.nodes.countP p := by
  simp [appendStyle, Doc.nodes, List.countP_append, List.countP_cons, hp]

/-! ## Claim C1: one unreachable stylesheet only skips that source -/

/-- Claim C1 counterexample: the claim asserts that a fetch failure for one
linked stylesheet never aborts the run, "both when the stylesheet is read from
the local filesystem and when it is fetched over the network".  For a network
stylesheet this is false: the `fetch` at cli.mjs lines 101-102 is not wrapped
in any try/catch inside the loop, so a rejected fetch propagates out of
`loadHtmlAndCss`, is caught only by the top-level handler, and the whole run
terminates with the generic failure code 1. -/
theorem c1_cex_network_failure_aborts :
    aggregateCss envNetFail docOneNetLink = Except.error "fetch failed" ∧
    mainModel ⟨true, false, "slim.html", defaultViewports⟩
        ⟨envNetFail, id, true, fun _ _ _ => 0⟩ docOneNetLink
      = MainResult.fatal "fetch failed" ∧
    exitCode (mainModel ⟨true, false, "slim.html", defaultViewports⟩
        ⟨envNetFail, id, true, fun _ _ _ => 0⟩ docOneNetLink) = 1 := by
  refine ⟨by decide, by decide, by decide⟩

/-- Claim C1 (amended): a failure to READ one LOCAL stylesheet source causes
only that StyleSource to be skipped — the read error is caught at cli.mjs
line 98, `css` becomes `""`, and the `continue` at line 104 moves on to the
remaining sources, so the Aggregator result over the remaining links is
unchanged.  (A NETWORK fetch failure, by contrast, aborts the run, per the
counterexample.) -/
theorem c1_local_read_failure_skips (env : Env) (l : Node) (ls : List Node) (u : String)
    (hurl : absUrl env (linkHref l) = some u)
    (hnet : startsWithHttpColon u = false)
    (hloc : env.isLocalInput = true)
    (hread : env.readLocal (env.diskResolve (beforeQuery (linkHref l))) = none) :
    processLink env l = Except.ok none ∧
    collectLinked env (l :: ls) = collectLinked env ls := by
  have hr : retrieveCss env (linkHref l) u = Except.ok "" := by
    unfold retrieveCss
    rw [if_pos ⟨hnet, hloc⟩, hread]
    rfl
  have hp : processLink env l = Except.ok none := by
    simp [processLink, hurl, hr]
  exact ⟨hp, by rw [collectLinked, hp]⟩

/-- Witness for `c1_local_read_failure_skips` at a concrete environment: a
relative stylesheet link in `--in` mode whose disk read throws is skipped,
and aggregation over the remaining link list is unchanged. -/
theorem c1_local_read_failure_skips_witness :
    absUrl envLocalFail (linkHref linkLocal) = some "local/style.css" ∧
    startsWithHttpColon "local/style.css" = false ∧
    envLocalFail.isLocalInput = true ∧
    envLocalFail.readLocal (envLocalFail.diskResolve (beforeQuery (linkHref linkLocal)))
      = none ∧
    (processLink envLocalFail linkLocal = Except.ok none ∧
     collectLinked envLocalFail [linkLocal, linkNet]
       = collectLinked envLocalFail [linkNet]) :=
  ⟨by decide, by decide, rfl, rfl,
   c1_local_read_failure_skips envLocalFail linkLocal [linkNet] "local/style.css"
     (by decide) (by decide) rfl rfl⟩

/-! ## Claim C2: assembly invariants of the output document -/

/-- Claim C2 counterexample: the claim asserts the output contains exactly one
style block in the head regardless of how many style elements the input has.
But `serializeWithStyle` (cli.mjs lines 158-187) never removes existing
`<style>` elements — it only removes stylesheet links, scripts and perf
hints — so an input whose head already holds one style block yields an output
head with two style blocks. -/
theorem c2_cex_existing_style_kept :
    ((serializeWithStyle false docOneStyle "q").head.countP isStyleNode) = 2 ∧
    ¬ ((serializeWithStyle false docOneStyle "q").head.countP isStyleNode = 1) := by
  refine ⟨by decide, by decide⟩

/-- Claim C2 (amended): for every input document, the Assembler's output
contains the input's style blocks plus exactly one appended style block in the
head (so exactly one when the input had none), zero script elements, zero
stylesheet links other than the exempt `fonts.googleapis` family, a charset
meta tag and a viewport meta tag, with existing equivalent meta tags left
untouched and never duplicated (the meta counts are unchanged when positive
and become one when zero). -/
theorem c2_assembly_invariants (kfl : Bool) (d : Doc) (css : String) :
    ((serializeWithStyle kfl d css).head.countP isStyleNode)
      = d.head.countP isStyleNode + 1 ∧
    ((serializeWithStyle kfl d css).nodes.countP isScriptNode) = 0 ∧
    ((serializeWithStyle kfl d css).nodes.countP isNonFontSheetLink) = 0 ∧
    ((serializeWithStyle kfl d css).nodes.countP isCharsetMeta)
      = max 1 (d.nodes.countP isCharsetMeta) ∧
    ((serializeWithStyle kfl d css).nodes.countP isViewportMeta)
      = max 1 (d.nodes.countP isViewportMeta) := by
  unfold serializeWithStyle
  refine ⟨?_, ?_, ?_, ?_, ?_⟩
  · rw [appendStyle_head_style_count,
      ensureViewport_head_countP_other isStyleNode (by rfl),
      ensureCharset_head_countP_other isStyleNode (by rfl),
      strip_head_countP isStyleNode style_keeps_font style_keeps_nonfont
        style_keeps_script]
  · rw [appendStyle_nodes_countP_other isScriptNode css (fun t => rfl),
      ensureViewport_nodes_countP_other isScriptNode (by rfl),
      ensureCharset_nodes_countP_other isScriptNode (by rfl),
      strip_no_scripts]
  · rw [appendStyle_nodes_countP_other isNonFontSheetLink css (fun t => rfl),
      ensureViewport_nodes_countP_other isNonFontSheetLink (by rfl),
      ensureCharset_nodes_countP_other isNonFontSheetLink (by rfl),
      strip_no_nonfont]
  · rw [appendStyle_nodes_countP_other isCharsetMeta css (fun t => rfl),
      ensureViewport_nodes_countP_other isCharsetMeta (by rfl),
      ensureCharset_charset_count,
      strip_nodes_countP isCharsetMeta charset_keeps_font charset_keeps_nonfont
        charset_keeps_script]
  · rw [appendStyle_nodes_countP_other isViewportMeta css (fun t => rfl),
      ensureViewport_viewport_count,
      ensureCharset_nodes_countP_other isViewportMeta (by rfl),
      strip_nodes_countP isViewportMeta viewport_keeps_font viewport_keeps_nonfont
        viewport_keeps_script]

/-! ## Claim C3: value-dependence of the data-attribute token -/

theorem takeWhile_append_all {p : Char → Bool} :
    ∀ (v : List Char), (∀ c ∈ v, p c = true) → ∀ rest : List Char,
      (v ++ rest).takeWhile p = v ++ rest.takeWhile p
  | [], _, rest => by simp
  | a :: v, h, rest => by
    have ha : p a = true := h a (List.mem_cons_self a v)
    have ih := takeWhile_append_all v (fun c hc => h c (List.mem_cons_of_mem a hc)) rest
    simp [List.takeWhile_cons, ha, ih]

theorem dropWhile_append_all {p : Char → Bool} :
    ∀ (v : List Char), (∀ c ∈ v, p c = true) → ∀ rest : List Char,
      (v ++ rest).dropWhile p = rest.dropWhile p
  | [], _, rest => by simp
  | a :: v, h, rest => by
    have ha : p a = true := h a (List.mem_cons_self a v)
    have ih := dropWhile_append_all v (fun c hc => h c (List.mem_cons_of_mem a hc)) rest
    simp [List.dropWhile_cons, ha, ih]

theorem matchOptValue_quoted (v : List Char) (hv : ∀ c ∈ v, isQuoteCh c = false) :
    matchOptValue ('=' :: '"' :: (v ++ ['"'])) = v.length + 3 := by
  have hall : ∀ c ∈ v, (!isQuoteCh c) = true := fun c hc => by simp [hv c hc]
  have hdrop : (v ++ ['"']).dropWhile (fun c => !isQuoteCh c) = ['"'] := by
    rw [dropWhile_append_all v hall]
    rfl
  have htake : (v ++ ['"']).takeWhile (fun c => !isQuoteCh c) = v := by
    rw [takeWhile_append_all v hall]
    simp [List.takeWhile_cons, isQuoteCh]
  simp only [matchOptValue, hdrop, htake]
  rw [if_pos (by decide)]
  rw [if_pos (by decide)]

theorem tryDataMatch_dataAttr (v : List Char) (hv : ∀ c ∈ v, isQuoteCh c = false) :
    tryDataMatch (dataAttrMarkup v) = some (v.length + 10) := by
  have hnm : List.takeWhile dataNameChar ('x' :: '=' :: '"' :: (v ++ ['"'])) = ['x'] := by
    simp [List.takeWhile_cons, show dataNameChar 'x' = true from by decide,
      show dataNameChar '=' = false from by decide]
  simp only [dataAttrMarkup, dataAttrTail, tryDataMatch]
  rw [if_pos (by decide)]
  simp only [hnm]
  rw [if_neg (by decide)]
  have hdrop1 : List.drop ([ 'x' ].length) ('x' :: '=' :: '"' :: (v ++ ['"']))
      = '=' :: '"' :: (v ++ ['"']) := rfl
  rw [hdrop1, matchOptValue_quoted v hv]
  simp only [List.length_cons, List.length_nil, Option.some.injEq]
  omega

theorem jsTrim_single_space (tok : List Char) (hfirst : tok.dropWhile jsWs = tok)
    (hlast : tok.reverse.dropWhile jsWs = tok.reverse) : jsTrim (' ' :: tok) = tok := by
  unfold jsTrim
  rw [List.dropWhile_cons]
  rw [if_pos (by decide)]
  rw [hfirst, hlast, List.reverse_reverse]

theorem dropWhile_reverse_concat {p : Char → Bool} (l : List Char) (x : Char)
    (hx : p x = false) : ((l ++ [x]).reverse).dropWhile p = (l ++ [x]).reverse := by
  rw [List.reverse_append]
  simp [List.dropWhile_cons, hx]

theorem jsTrim_dataAttrMarkup (v : List Char) :
    jsTrim (dataAttrMarkup v) = dataAttrTail v := by
  have hfirst : (dataAttrTail v).dropWhile jsWs = dataAttrTail v := by
    unfold dataAttrTail
    rw [List.dropWhile_cons]
    rw [if_neg (by decide)]
  have hlast : (dataAttrTail v).reverse.dropWhile jsWs = (dataAttrTail v).reverse := by
    exact dropWhile_reverse_concat
      ('d' :: 'a' :: 't' :: 'a' :: '-' :: 'x' :: '=' :: '"' :: v) '"' (by decide)
  exact jsTrim_single_space (dataAttrTail v) hfirst hlast

theorem scanDataAux_succ (fuel : Nat) (c : Char) (cs : List Char) :
    scanDataAux (fuel + 1) (c :: cs)
      = match tryDataMatch (c :: cs) with
        | some n => jsTrim ((c :: cs).take n) :: scanDataAux fuel (cs.drop (n - 1))
        | none => scanDataAux fuel cs := rfl

theorem scanDataAux_dataAttr (v : List Char) (hv : ∀ c ∈ v, isQuoteCh c = false) :
    scanDataAux (v.length + 9 + 1) (dataAttrMarkup v) = [dataAttrTail v] := by
  have hstep : scanDataAux (v.length + 9 + 1) (dataAttrMarkup v)
      = match tryDataMatch (dataAttrMarkup v) with
        | some n => jsTrim ((dataAttrMarkup v).take n)
            :: scanDataAux (v.length + 9) ((dataAttrTail v).drop (n - 1))
        | none => scanDataAux (v.length + 9) (dataAttrTail v) :=
    scanDataAux_succ (v.length + 9) ' ' (dataAttrTail v)
  rw [hstep, tryDataMatch_dataAttr v hv]
  have hlenm : (dataAttrMarkup v).length = v.length + 10 := by
    simp [dataAttrMarkup, dataAttrTail]
  have htake : (dataAttrMarkup v).take (v.length + 10) = dataAttrMarkup v := by
    rw [← hlenm, List.take_length]
  have hlent : (dataAttrTail v).length = v.length + 9 := by
    simp [dataAttrTail]
  have hdrop : (dataAttrTail v).drop (v.length + 10 - 1) = [] := by
    have : v.length + 10 - 1 = (dataAttrTail v).length := by omega
    rw [this, List.drop_length]
  simp only [htake, hdrop]
  rw [jsTrim_dataAttrMarkup v]
  rfl

/-- Claim C3 counterexample: the claim asserts that the token extracted for a
`data-*` attribute is the attribute name alone, value-independent.  But the
extractor (cli.mjs line 146) maps each regex match to `m[0].trim()`, the WHOLE
matched text including the optional `="value"` group, so two markups differing
only in the value of `data-x` yield different tokens, and neither token is the
bare attribute name. -/
theorem c3_cex_value_dependent :
    dataTokens " data-x=\x22a\x22" ≠ dataTokens " data-x=\x22b\x22" ∧
    dataTokens " data-x=\x22a\x22" = [("data-x=\x22a\x22").toList] ∧
    dataTokens " data-x=\x22b\x22" = [("data-x=\x22b\x22").toList] ∧
    dataTokens " data-x=\x22a\x22" ≠ [("data-x").toList] := by
  refine ⟨by decide, by decide, by decide, by decide⟩

/-- Claim C3 (amended): the Pruner's token extractor maps a `data-*` attribute
to the full matched attribute text (name plus quoted value when present), so
it is value-DEPENDENT: the markup consisting of one `data-x="v"` attribute
yields exactly the token `data-x="v"`, and two such markups yield equal token
lists only when their values are equal. -/
theorem c3_data_token_includes_value (v : List Char) (hv : ∀ c ∈ v, isQuoteCh c = false) :
    dataTokens (String.mk (dataAttrMarkup v)) = [dataAttrTail v] ∧
    (∀ w : List Char, (∀ c ∈ w, isQuoteCh c = false) →
      dataTokens (String.mk (dataAttrMarkup v)) = dataTokens (String.mk (dataAttrMarkup w)) →
      v = w) := by
  have hmain : ∀ u : List Char, (∀ c ∈ u, isQuoteCh c = false) →
      dataTokens (String.mk (dataAttrMarkup u)) = [dataAttrTail u] := by
    intro u hu
    have hlen : (String.mk (dataAttrMarkup u)).toList.length = u.length + 9 + 1 := by
      show (dataAttrMarkup u).length = u.length + 9 + 1
      simp [dataAttrMarkup, dataAttrTail]
    show scanDataAux (String.mk (dataAttrMarkup u)).toList.length (dataAttrMarkup u)
      = [dataAttrTail u]
    rw [hlen]
    exact scanDataAux_dataAttr u hu
  refine ⟨hmain v hv, fun w hw heq => ?_⟩
  rw [hmain v hv, hmain w hw] at heq
  have htail : dataAttrTail v = dataAttrTail w := by
    injection heq
  simp [dataAttrTail] at htail
  exact htail

/-- Witness for `c3_data_token_includes_value` at `v = "a"`. -/
theorem c3_data_token_includes_value_witness :
    (∀ c ∈ ['a'], isQuoteCh c = false) ∧
    dataTokens (String.mk (dataAttrMarkup ['a'])) = [dataAttrTail ['a']] :=
  ⟨by decide, (c3_data_token_includes_value ['a'] (by decide)).1⟩

/-! ## Claim C4: default handling of web-font stylesheet links -/

/-- Claim C4 (code bug): the claim — and the source's own usage text, cli.mjs
line 13: "default: keep if no local font files" — says the `fonts.googleapis`
link family is KEPT by default.  But `keepFontLinks = !!args["keep-font-links"]`
(line 46) is `false` when the flag is absent, and `serializeWithStyle` then
REMOVES the font links (line 164).  With no flag the font link disappears; it
is kept only when `--keep-font-links` is passed, and there is no flag that
removes it (it is removed by default). -/
theorem c4_font_links_removed_by_default :
    keepFontLinksOf argvDefaultRun = false ∧
    docWithFontLink.nodes.countP isFontSheetLink = 1 ∧
    ((serializeWithStyle (keepFontLinksOf argvDefaultRun) docWithFontLink
        "c").nodes.countP isFontSheetLink) = 0 ∧
    ((serializeWithStyle true docWithFontLink "c").nodes.countP isFontSheetLink) = 1 := by
  refine ⟨by decide, by decide, by decide, by decide⟩

/-! ## Claim C5: order preservation in the Aggregator -/

theorem collectLinked_ok_eq (env : Env) :
    ∀ (ls : List Node) (ps : List String), collectLinked env ls = Except.ok ps →
      ps = ls.filterMap (okPart env) := by
  intro ls
  induction ls with
  | nil =>
    intro ps h
    simp [collectLinked] at h
    subst h
    rfl
  | cons l ls ih =>
    intro ps h
    unfold collectLinked at h
    cases hp : processLink env l with
    | error e => rw [hp] at h; exact absurd h (by simp)
    | ok r =>
      rw [hp] at h
      cases r with
      | none =>
        have hrec := ih ps h
        simp [List.filterMap_cons, okPart, hp, hrec]
      | some s =>
        cases hc : collectLinked env ls with
        | error e => rw [hc] at h; exact absurd h (by simp)
        | ok rest =>
          rw [hc] at h
          simp at h
          have hrec := ih rest hc
          simp [List.filterMap_cons, okPart, hp, ← h, hrec]

/-- Claim C5: when aggregation succeeds, the Aggregator's output is exactly
the join (with blank-line separators) of the linked stylesheets' contributions
in document order followed by the inline style blocks' contents in document
order — inline contents strictly after all linked contributions. -/
theorem c5_order_preservation (env : Env) (d : Doc) (out : String)
    (h : aggregateCss env d = Except.ok out) :
    out = String.intercalate "\n\n"
      ((styleLinks d).filterMap (okPart env) ++ inlineStyles d) := by
  unfold aggregateCss at h
  cases hc : collectLinked env (styleLinks d) with
  | error e => rw [hc] at h; exact absurd h (by simp)
  | ok parts =>
    rw [hc] at h
    simp at h
    rw [← h, collectLinked_ok_eq env (styleLinks d) parts hc]

/-- Witness for `c5_order_preservation`: two linked stylesheets and one inline
block aggregate to first link, second link, then the inline text. -/
theorem c5_order_preservation_witness :
    aggregateCss envEcho docTwoLinks
      = Except.ok "https://e.com/a.css\n\nhttps://e.com/b.css\n\ni\x7b\x7d" ∧
    "https://e.com/a.css\n\nhttps://e.com/b.css\n\ni\x7b\x7d"
      = String.intercalate "\n\n"
          ((styleLinks docTwoLinks).filterMap (okPart envEcho) ++ inlineStyles docTwoLinks) :=
  ⟨by decide, c5_order_preservation envEcho docTwoLinks _ (by decide)⟩

/-! ## Claim C6: media wrapping -/

/-- Claim C6: a linked stylesheet whose trimmed media attribute is nonempty
and (case-insensitively) not "all" contributes its CSS wrapped in the
corresponding media-conditional block; with media `all` (any case) or no
media attribute the CSS is contributed unwrapped (cli.mjs lines 105-109). -/
theorem c6_media_wrapping (env : Env) (href u c : String)
    (hurl : absUrl env href = some u)
    (hret : retrieveCss env href u = Except.ok c)
    (hc : c ≠ "") :
    (∀ m : String, jsTrimStr m ≠ "" → jsToLower (jsTrimStr m) ≠ "all" →
      processLink env (Node.link "stylesheet" href m)
        = Except.ok (some ("@media " ++ jsTrimStr m ++ "\x7b\n" ++ c ++ "\n\x7d"))) ∧
    processLink env (Node.link "stylesheet" href "print")
      = Except.ok (some ("@media " ++ "print" ++ "\x7b\n" ++ c ++ "\n\x7d")) ∧
    processLink env (Node.link "stylesheet" href "all") = Except.ok (some c) ∧
    processLink env (Node.link "stylesheet" href "ALL") = Except.ok (some c) ∧
    processLink env (Node.link "stylesheet" href "") = Except.ok (some c) := by
  have hgen : ∀ m : String, jsTrimStr m ≠ "" → jsToLower (jsTrimStr m) ≠ "all" →
      processLink env (Node.link "stylesheet" href m)
        = Except.ok (some ("@media " ++ jsTrimStr m ++ "\x7b\n" ++ c ++ "\n\x7d")) := by
    intro m hm1 hm2
    simp only [processLink, linkHref, linkMedia, hurl, hret]
    rw [if_neg hc, if_pos ⟨hm1, hm2⟩]
  have hplain : ∀ m : String,
      ¬ (jsTrimStr m ≠ "" ∧ jsToLower (jsTrimStr m) ≠ "all") →
      processLink env (Node.link "stylesheet" href m) = Except.ok (some c) := by
    intro m hm
    simp only [processLink, linkHref, linkMedia, hurl, hret]
    rw [if_neg hc, if_neg hm]
  refine ⟨hgen, ?_, ?_, ?_, ?_⟩
  · have hp := hgen "print" (by decide) (by decide)
    rw [show jsTrimStr "print" = "print" from by decide] at hp
    exact hp
  · exact hplain "all" (by decide)
  · exact hplain "ALL" (by decide)
  · exact hplain "" (by decide)

/-- Witness for `c6_media_wrapping` at a concrete environment: a stylesheet
linked with `media="print"` is wrapped, one with `media="all"` is not. -/
theorem c6_media_wrapping_witness :
    absUrl envEcho "https://e.com/a.css" = some "https://e.com/a.css" ∧
    retrieveCss envEcho "https://e.com/a.css" "https://e.com/a.css"
      = Except.ok "https://e.com/a.css" ∧
    processLink envEcho (Node.link "stylesheet" "https://e.com/a.css" "print")
      = Except.ok (some ("@media " ++ "print" ++ "\x7b\n" ++ "https://e.com/a.css"
          ++ "\n\x7d")) ∧
    processLink envEcho (Node.link "stylesheet" "https://e.com/a.css" "all")
      = Except.ok (some "https://e.com/a.css") :=
  ⟨by decide, by decide,
   ((c6_media_wrapping envEcho "https://e.com/a.css" "https://e.com/a.css"
      "https://e.com/a.css" (by decide) (by decide) (by decide)).2).1,
   (((c6_media_wrapping envEcho "https://e.com/a.css" "https://e.com/a.css"
      "https://e.com/a.css" (by decide) (by decide) (by decide)).2).2).1⟩

/-! ## Claim C7: safelist-extension parsing -/

/-- Claim C7: in `buildSafelist` (cli.mjs lines 125-133), a user-supplied
entry ending in the separator `-` is stored, without the trailing separator,
among the pattern stems (a prefix match), and every other entry goes into the
exact-name `standard` list; in particular `"my-prefix-,exact-keep"` parses to
the two entries and yields `my-prefix` as a stem and `exact-keep` as an exact
name. -/
theorem c7_safelist_parsing (extra : List String) (s : String) (hs : s ∈ extra) :
    (jsEndsWith s "-" = true →
      jsStripEndDash s ∈ (buildSafelist extra).deep ∧
      jsStripEndDash s ∈ (buildSafelist extra).greedy ∧
      jsStripEndDash s = String.mk s.toList.dropLast) ∧
    (jsEndsWith s "-" = false → s ∈ (buildSafelist extra).standard) ∧
    parseCommaList "my-prefix-,exact-keep" = ["my-prefix-", "exact-keep"] ∧
    "my-prefix" ∈ (buildSafelist (parseCommaList "my-prefix-,exact-keep")).deep ∧
    "exact-keep" ∈ (buildSafelist (parseCommaList "my-prefix-,exact-keep")).standard := by
  refine ⟨fun h => ⟨?_, ?_, ?_⟩, fun h => ?_, by decide, by decide, by decide⟩
  · show jsStripEndDash s ∈ safeFamilies ++ (extra.filter (fun t => jsEndsWith t "-")).map jsStripEndDash
    exact List.mem_append.mpr (Or.inr
      (List.mem_map_of_mem jsStripEndDash (List.mem_filter.mpr ⟨hs, h⟩)))
  · show jsStripEndDash s ∈ safeFamilies ++ (extra.filter (fun t => jsEndsWith t "-")).map jsStripEndDash
    exact List.mem_append.mpr (Or.inr
      (List.mem_map_of_mem jsStripEndDash (List.mem_filter.mpr ⟨hs, h⟩)))
  · unfold jsStripEndDash
    rw [if_pos h]
  · show s ∈ safeFamilies ++ extra.filter (fun t => !(jsEndsWith t "-"))
    exact List.mem_append.mpr (Or.inr (List.mem_filter.mpr ⟨hs, by simp [h]⟩))

/-- Witness for `c7_safelist_parsing` at the claim's own extension string. -/
theorem c7_safelist_parsing_witness :
    "my-prefix-" ∈ parseCommaList "my-prefix-,exact-keep" ∧
    jsStripEndDash "my-prefix-"
      ∈ (buildSafelist (parseCommaList "my-prefix-,exact-keep")).deep :=
  ⟨by decide,
   ((c7_safelist_parsing (parseCommaList "my-prefix-,exact-keep") "my-prefix-"
      (by decide)).1 (by decide)).1⟩

/-! ## Claims C8-C10: Visual Guard and main-pipeline exit behaviour -/

theorem foldl_max_le_iff (l : List Nat) :
    ∀ a b : Nat, l.foldl max a ≤ b ↔ a ≤ b ∧ ∀ x ∈ l, x ≤ b := by
  induction l with
  | nil => intro a b; simp
  | cons x l ih =>
    intro a b
    simp only [List.foldl_cons]
    rw [ih (max a x) b, Nat.max_le]
    constructor
    · rintro ⟨⟨ha, hx⟩, hl⟩
      refine ⟨ha, fun y hy => ?_⟩
      rcases List.mem_cons.mp hy with h | h
      · subst h; exact hx
      · exact hl y h
    · rintro ⟨ha, hall⟩
      exact ⟨⟨ha, hall x (List.mem_cons_self x l)⟩,
        fun y hy => hall y (List.mem_cons_of_mem x hy)⟩

/-- Claim C8: with the collaborators available, the guard's verdict is a
function of the pixel-diff counts of ALL configured viewports — it accepts
exactly when every viewport's count is at most 500 (it tracks the maximum via
`worst` and compares `worst <= 500`, cli.mjs lines 208, 228, 235); on
rejection the run terminates with exit code 2 (line 255), distinct from the
generic failure code 1. -/
theorem c8_visual_budget (cfg : Config) (w : World) (d : Doc) (css : String)
    (hagg : aggregateCss w.env d = Except.ok css)
    (hvis : cfg.doVisual = true)
    (hdeps : w.guardDeps = true) :
    ((visualGuard w.guardDeps (w.diff d (slimDoc cfg w d css)) cfg.viewportsCsv).ok = true
      ↔ ∀ vp ∈ parseCommaList cfg.viewportsCsv,
          w.diff d (slimDoc cfg w d css) vp ≤ 500) ∧
    ((visualGuard w.guardDeps (w.diff d (slimDoc cfg w d css)) cfg.viewportsCsv).ok = false →
      mainModel cfg w d = MainResult.visualFail ∧
      exitCode (mainModel cfg w d) = 2 ∧
      exitCode (mainModel cfg w d) ≠ 1) := by
  constructor
  · have hvg : visualGuard w.guardDeps (w.diff d (slimDoc cfg w d css)) cfg.viewportsCsv
        = ⟨decide ((((parseCommaList cfg.viewportsCsv).map
            (w.diff d (slimDoc cfg w d css))).foldl max 0) ≤ 500), false⟩ := by
      rw [hdeps]
      unfold visualGuard
      rw [if_neg (by simp)]
    rw [hvg]
    simp only [decide_eq_true_eq]
    rw [foldl_max_le_iff]
    constructor
    · rintro ⟨-, hall⟩ vp hvp
      exact hall _ (List.mem_map_of_mem _ hvp)
    · intro hall
      refine ⟨by omega, ?_⟩
      intro x hx
      rcases List.mem_map.mp hx with ⟨vp, hvp, rfl⟩
      exact hall vp hvp
  · intro hfalse
    have hm : mainModel cfg w d = MainResult.visualFail := by
      simp [mainModel, hagg, hvis, hfalse]
    refine ⟨hm, by rw [hm]; rfl, by rw [hm]; decide⟩

/-- Witness for `c8_visual_budget`: over-budget diffs at every viewport make
the guard reject and the run end in the visual-failure state with exit 2. -/
theorem c8_visual_budget_witness :
    aggregateCss worldReject.env docTwoLinks = Except.ok cssTwoLinks ∧
    (visualGuard worldReject.guardDeps
        (worldReject.diff docTwoLinks (slimDoc cfgVisual worldReject docTwoLinks cssTwoLinks))
        cfgVisual.viewportsCsv).ok = false ∧
    (mainModel cfgVisual worldReject docTwoLinks = MainResult.visualFail ∧
     exitCode (mainModel cfgVisual worldReject docTwoLinks) = 2 ∧
     exitCode (mainModel cfgVisual worldReject docTwoLinks) ≠ 1) :=
  ⟨by decide, by decide,
   (c8_visual_budget cfgVisual worldReject docTwoLinks cssTwoLinks
      (by decide) rfl rfl).2 (by decide)⟩

/-- Claim C9: when the guard is activated but the optional rendering/diffing
collaborators cannot be loaded, the guard warns and reports pass (cli.mjs
lines 195-198), and the pipeline completes successfully, writing the output
with exit code 0 rather than failing. -/
theorem c9_guard_degrades_to_pass (cfg : Config) (w : World) (d : Doc) (css : String)
    (hagg : aggregateCss w.env d = Except.ok css)
    (hdeps : w.guardDeps = false) :
    (∀ (diff : String → Nat) (csv : String), visualGuard false diff csv = ⟨true, true⟩) ∧
    mainModel cfg w d = MainResult.success cfg.outPath (slimDoc cfg w d css) ∧
    exitCode (mainModel cfg w d) = 0 := by
  have hvg : ∀ (diff : String → Nat) (csv : String),
      visualGuard false diff csv = ⟨true, true⟩ := by
    intro f csv
    unfold visualGuard
    rw [if_pos rfl]
  have hm : mainModel cfg w d = MainResult.success cfg.outPath (slimDoc cfg w d css) := by
    simp [mainModel, hagg, hdeps, hvg]
  exact ⟨hvg, hm, by rw [hm]; rfl⟩

/-- Witness for `c9_guard_degrades_to_pass` at a concrete world with the
collaborators missing. -/
theorem c9_guard_degrades_to_pass_witness :
    aggregateCss worldNoDeps.env docTwoLinks = Except.ok cssTwoLinks ∧
    worldNoDeps.guardDeps = false ∧
    (visualGuard false (fun _ => 1000) defaultViewports = ⟨true, true⟩ ∧
     mainModel cfgVisual worldNoDeps docTwoLinks
       = MainResult.success cfgVisual.outPath
           (slimDoc cfgVisual worldNoDeps docTwoLinks cssTwoLinks) ∧
     exitCode (mainModel cfgVisual worldNoDeps docTwoLinks) = 0) :=
  have h := c9_guard_degrades_to_pass cfgVisual worldNoDeps docTwoLinks cssTwoLinks
    (by decide) rfl
  ⟨by decide, rfl, h.1 (fun _ => 1000) defaultViewports, h.2.1, h.2.2⟩

/-- Claim C10: with the guard enabled, the output write (cli.mjs line 260) is
reached only after the guard accepts: on rejection the process exits with
code 2 at line 255, before the write, so the slimmed document — although
already computed at line 248 — is never written and the configured output
location is untouched by the main pipeline. -/
theorem c10_no_write_on_reject (cfg : Config) (w : World) (d : Doc) (css : String)
    (hagg : aggregateCss w.env d = Except.ok css)
    (hvis : cfg.doVisual = true)
    (hrej : (visualGuard w.guardDeps (w.diff d (slimDoc cfg w d css))
        cfg.viewportsCsv).ok = false) :
    mainModel cfg w d = MainResult.visualFail ∧
    writesOutput (mainModel cfg w d) = none ∧
    exitCode (mainModel cfg w d) = 2 ∧
    (∀ p c, mainModel cfg w d ≠ MainResult.success p c) := by
  have hm : mainModel cfg w d = MainResult.visualFail := by
    simp [mainModel, hagg, hvis, hrej]
  refine ⟨hm, by rw [hm]; rfl, by rw [hm]; rfl, ?_⟩
  intro p c
  rw [hm]
  exact fun hh => MainResult.noConfusion hh

/-- Witness for `c10_no_write_on_reject` at the over-budget concrete world. -/
theorem c10_no_write_on_reject_witness :
    cfgVisual.doVisual = true ∧
    (visualGuard worldReject.guardDeps
        (worldReject.diff docTwoLinks (slimDoc cfgVisual worldReject docTwoLinks cssTwoLinks))
        cfgVisual.viewportsCsv).ok = false ∧
    (mainModel cfgVisual worldReject docTwoLinks = MainResult.visualFail ∧
     writesOutput (mainModel cfgVisual worldReject docTwoLinks) = none ∧
     exitCode (mainModel cfgVisual worldReject docTwoLinks) = 2 ∧
     (∀ p c, mainModel cfgVisual worldReject docTwoLinks ≠ MainResult.success p c)) :=
  ⟨rfl, by decide,
   c10_no_write_on_reject cfgVisual worldReject docTwoLinks cssTwoLinks
     (by decide) rfl (by decide)⟩
